import Mathlib

/-!
Verification of the conversion-orchestration engine of this repository
(`new_docx2pdf.py`, `new_optimized.py`, `celery_worker.py`) against its
natural-language specification.

The development shallowly embeds the relevant program parts:

* the archive repair engine (`try_repair_office_file`, `clean_xml_references`,
  `create_placeholder`) over an explicit archive model with names as `List Char`;
* the outcome classification of supervised conversion attempts
  (`docx_to_pdf_unoconv`, the LibreOffice branch of
  `not_pdf_to_images_webp_libreoffice`);
* the dynamic timeout computation of `not_pdf_to_images_webp_libreoffice`;
* the page-quality assignment of `not_pdf_to_images_webp_libreoffice` and
  `pdf_to_images_webp`;
* the compression pre-processing (`compress_pptx_file`, `compress_docx_file`);
* the job orchestration `generate_docs_for_soff` as a function from an
  environment (outcomes of the external steps) to a result boolean, a final
  file-system state, and a trace of attempted actions;
* the producer/worker queue protocol (`producer`, `worker`).
-/

/-! ## Character-list string utilities

The repair engine matches dropped member names by Python's substring
containment (`m in rid`, `m in target`) and dispatches on file-name suffixes
(`endswith`).  Names are modelled as `List Char` so that everything reduces
in the kernel. -/

/-- Does the second list start with the first? (Python `str.startswith`.) -/
def startsWithB : List Char → List Char → Bool
  | [], _ => true
  | _ :: _, [] => false
  | a :: as, b :: bs => a == b && startsWithB as bs

/-- Substring containment: Python's `pat in s`. -/
def hasSubB (pat : List Char) : List Char → Bool
  | [] => startsWithB pat []
  | c :: rest => startsWithB pat (c :: rest) || hasSubB pat rest

/-- Suffix test, Python's `s.endswith(suf)`. -/
def endsWithL (suf s : List Char) : Bool := startsWithB suf.reverse s.reverse

/-- Python's `s.lower()` on a character-list name. -/
def lowerL (s : List Char) : List Char := s.map Char.toLower

/-- Archive member names (paths inside the zip), as character lists. -/
abbrev MName := List Char

/-- From `try_repair_office_file`: `file.lower().endswith((".png", ".jpg", ".jpeg"))`. -/
def isImageName (n : MName) : Bool :=
  endsWithL ".png".toList (lowerL n) || endsWithL ".jpg".toList (lowerL n) ||
    endsWithL ".jpeg".toList (lowerL n)

/-- From `clean_xml_references`: `file.endswith(".xml") or file.endswith(".rels")`. -/
def isXmlName (n : MName) : Bool :=
  endsWithL ".xml".toList n || endsWithL ".rels".toList n

/-! ## Archive repair engine (`try_repair_office_file` + `clean_xml_references`)

An archive is a list of entries.  Each entry has a name, a corruption flag
(whether `zip_ref.extract` raises for it), and — for the XML/relationship
documents — its reference nodes.  A node is an `<a:blip>` with an optional
`r:embed` attribute, a `<Relationship>` with an optional `Id` and optional
`Target` attribute, or any other node. -/

inductive XNode
  | blip (rid : Option MName)
  | relNode (relId : Option MName) (target : Option MName)
  | otherNode
deriving DecidableEq

/-- The removal condition of `clean_xml_references`: a `blip` whose `r:embed`
attribute contains some missing file name as a substring, or a `Relationship`
whose `Target` contains some missing file name as a substring
(`any(m in rid for m in missing_files)` / `any(m in target ...)`). -/
def removedByClean (missing : List MName) (n : XNode) : Bool :=
  match n with
  | XNode.blip (some rid) => missing.any (fun m => hasSubB m rid)
  | XNode.relNode _ (some t) => missing.any (fun m => hasSubB m t)
  | _ => false

/-- `clean_xml_references` on one parsed document: matching nodes are removed
from their parents, i.e. the node list is filtered.  (Documents are taken to
be well-formed: a file `ET.parse` cannot read is merely logged by the code
and is outside this model.) -/
def cleanNodes (missing : List MName) (nodes : List XNode) : List XNode :=
  nodes.filter (fun n => !(removedByClean missing n))

structure ZipEntry where
  name : MName
  corrupt : Bool
  nodes : List XNode
deriving DecidableEq

/-- The `missing_files` list built by the extraction loop of
`try_repair_office_file`: every member whose extraction raises is recorded,
image or not. -/
def missingOf (arch : List ZipEntry) : List MName :=
  (arch.filter (fun e => e.corrupt)).map (fun e => e.name)

/-- The extraction loop: healthy members are extracted as they are; a corrupt
image member is replaced by a fresh placeholder file at the same path
(`create_placeholder`); a corrupt non-image member is skipped. -/
def extractedEntries (arch : List ZipEntry) : List ZipEntry :=
  arch.filterMap (fun e =>
    if e.corrupt then
      if isImageName e.name then some { name := e.name, corrupt := false, nodes := [] }
      else none
    else some e)

/-- Cleaning pass applied to one extracted file: only `.xml`/`.rels` files are
parsed and cleaned. -/
def cleanEntry (missing : List MName) (e : ZipEntry) : ZipEntry :=
  if isXmlName e.name then { e with nodes := cleanNodes missing e.nodes } else e

/-- `try_repair_office_file` on a zip archive: extract members individually,
then (`if missing_files:`) clean the XML/relationship documents, then repack
the extracted tree. -/
def repairArchive (arch : List ZipEntry) : List ZipEntry :=
  let missing := missingOf arch
  if missing.isEmpty then extractedEntries arch
  else (extractedEntries arch).map (cleanEntry missing)

/-- The member names present in a (repaired) archive. -/
def memberNames (arch : List ZipEntry) : List MName :=
  arch.map (fun e => e.name)

/-! ### OPC reference resolution

The claim speaks of a reference "resolving to a member present in the
repaired archive".  The following formalises the OOXML/OPC resolution rule
the documents use: a `Target` of a `.rels` part is resolved relative to the
directory of the part the `.rels` file describes (the `_rels` segment is
stripped), with `.`/`..` segments normalised.  This is the meaning of the
claim's word "resolves"; it is not code of the repository. -/

/-- Split a path into `/`-separated segments. -/
def splitSegs : List Char → List (List Char)
  | [] => [[]]
  | c :: rest =>
    let r := splitSegs rest
    if c = '/' then [] :: r
    else
      match r with
      | [] => [[c]]
      | s :: ss => (c :: s) :: ss

/-- Normalise `.` and `..` segments. -/
def normSegs (segs : List (List Char)) : List (List Char) :=
  segs.foldl
    (fun acc seg =>
      if seg = "..".toList then acc.dropLast
      else if seg = ".".toList then acc
      else acc ++ [seg])
    []

/-- Join segments back into a path. -/
def joinSegs (segs : List (List Char)) : MName := List.intercalate ['/'] segs

/-- The directory a relationship `Target` is resolved against: the directory
of the `.rels` file with a trailing `_rels` segment stripped. -/
def relBaseSegs (relsName : MName) : List (List Char) :=
  let d := (splitSegs relsName).dropLast
  if d.getLast? = some "_rels".toList then d.dropLast else d

/-- Resolve a relationship `Target` found in the document named `relsName`. -/
def resolveTarget (relsName target : MName) : MName :=
  joinSegs (normSegs (relBaseSegs relsName ++ splitSegs target))

/-- Claim C1, `Relationship` half: every `Target` remaining in the repaired
archive's documents resolves to a present member. -/
def relTargetsResolve (arch : List ZipEntry) : Prop :=
  ∀ e ∈ repairArchive arch, ∀ n ∈ e.nodes, ∀ i t, n = XNode.relNode i (some t) →
    resolveTarget e.name t ∈ memberNames (repairArchive arch)

/-- Claim C1, embed half: every `r:embed` relationship id remaining in a
document is defined by a remaining `Relationship` whose `Target` resolves to a
present member. -/
def embedsResolve (arch : List ZipEntry) : Prop :=
  ∀ e ∈ repairArchive arch, ∀ n ∈ e.nodes, ∀ r, n = XNode.blip (some r) →
    ∃ e' ∈ repairArchive arch, ∃ t, XNode.relNode (some r) (some t) ∈ e'.nodes ∧
      resolveTarget e'.name t ∈ memberNames (repairArchive arch)

/-- Claim C1 as stated: the repaired archive has no dangling reference. -/
def repairDanglingFree (arch : List ZipEntry) : Prop :=
  embedsResolve arch ∧ relTargetsResolve arch

/-- A DOCX-like archive with one corrupt embedded OLE object: the document
part references it through `rId7`, the relationship part targets it through
the relative path `embeddings/oleobject1.bin`, and extraction of the member
`word/embeddings/oleobject1.bin` fails. -/
def archX : List ZipEntry :=
  [ { name := "word/document.xml".toList, corrupt := false,
      nodes := [XNode.blip (some "rId7".toList)] },
    { name := "word/_rels/document.xml.rels".toList, corrupt := false,
      nodes := [XNode.relNode (some "rId7".toList)
        (some "embeddings/oleobject1.bin".toList)] },
    { name := "word/embeddings/oleobject1.bin".toList, corrupt := true, nodes := [] } ]

/-- The relationship document of `archX`, as it survives repair unchanged. -/
def relsEntryX : ZipEntry :=
  { name := "word/_rels/document.xml.rels".toList, corrupt := false,
    nodes := [XNode.relNode (some "rId7".toList)
      (some "embeddings/oleobject1.bin".toList)] }

/-- C1 counterexample: repairing `archX` drops `word/embeddings/oleobject1.bin`
but keeps the `Relationship` targeting it, because the dropped member's full
archive path is not a substring of the relative `Target`
`embeddings/oleobject1.bin`; the remaining target resolves to an absent
member, so the repaired archive does contain a dangling reference. -/
theorem C1_dangling_counterexample : ¬ repairDanglingFree archX := by
  intro h
  have hm := h.2 relsEntryX (by decide)
    (XNode.relNode (some "rId7".toList) (some "embeddings/oleobject1.bin".toList))
    (by decide) (some "rId7".toList) ("embeddings/oleobject1.bin".toList) rfl
  revert hm
  decide

/-- Helper: the removal condition is vacuous for an empty missing list. -/
theorem removedByClean_nil (n : XNode) : removedByClean [] n = false := by
  cases n with
  | blip r => cases r <;> rfl
  | relNode i t => cases t <;> rfl
  | otherNode => rfl

/-- C1 amended: what the cleaning pass actually guarantees is literal, not
semantic — after repair, no XML/relationship document of the repaired archive
retains a `blip`/`Relationship` node whose `r:embed`/`Target` attribute
contains a dropped member's full archive path as a substring.  References
whose attribute does not literally contain the dropped path (relationship ids
such as `rId7`, relative targets) may remain dangling. -/
theorem C1_clean_removes_literal_refs (arch : List ZipEntry) (e : ZipEntry)
    (he : e ∈ repairArchive arch) (hx : isXmlName e.name = true)
    (n : XNode) (hn : n ∈ e.nodes) :
    removedByClean (missingOf arch) n = false := by
  unfold repairArchive at he
  by_cases hM : (missingOf arch).isEmpty
  · rw [if_pos hM] at he
    rw [List.isEmpty_iff.mp hM]
    exact removedByClean_nil n
  · rw [if_neg hM] at he
    obtain ⟨e0, _, rfl⟩ := List.mem_map.mp he
    unfold cleanEntry at hx hn
    by_cases hx0 : isXmlName e0.name = true
    · rw [if_pos hx0] at hn
      have := (List.mem_filter.mp hn).2
      simpa using this
    · rw [if_neg hx0] at hx
      exact absurd hx hx0

/-- An archive with one corrupt non-image member and a healthy relationship
document whose target does not mention it. -/
def archW : List ZipEntry :=
  [ { name := "a.rels".toList, corrupt := false,
      nodes := [XNode.relNode (some "rId1".toList) (some "media/x.png".toList)] },
    { name := "word/media/zzz.bin".toList, corrupt := true, nodes := [] } ]

/-- Witness for `C1_clean_removes_literal_refs` at the concrete archive
`archW`. -/
theorem C1_clean_removes_literal_refs_witness :
    removedByClean (missingOf archW)
      (XNode.relNode (some "rId1".toList) (some "media/x.png".toList)) = false :=
  C1_clean_removes_literal_refs archW
    { name := "a.rels".toList, corrupt := false,
      nodes := [XNode.relNode (some "rId1".toList) (some "media/x.png".toList)] }
    (by decide) (by decide) _ (by decide)

/-! ## Supervised attempt outcome classification (C4)

`docx_to_pdf_unoconv` (lines 429-446): after the child finishes, the result
is a PDF path only when `process.returncode == 0` **and** the PDF file
exists; every other combination returns `None`.  The LibreOffice branch of
`not_pdf_to_images_webp_libreoffice` (lines 626-640): a nonzero return code
raises (crash-marked if the code is negative or stderr mentions a
segmentation fault), a zero return code without a produced PDF raises, and
only a zero return code with a produced PDF proceeds. -/

/-- The unoconv result check: `some ()` abstracts the returned PDF path. -/
def unoconvResult (returncode : Int) (outputExists : Bool) : Option Unit :=
  if returncode = 0 then
    if outputExists then some () else none
  else none

inductive LOOutcome
  | ok
  | crashedErr
  | failedErr
  | noOutputErr
deriving DecidableEq

/-- The LibreOffice completion check: what `not_pdf_to_images_webp_libreoffice`
does with the supervised process's exit status and output presence. -/
def libreResult (returncode : Int) (stderrSegfault : Bool) (pdfProduced : Bool) :
    LOOutcome :=
  if returncode ≠ 0 then
    if returncode < 0 || stderrSegfault then LOOutcome.crashedErr else LOOutcome.failedErr
  else if !pdfProduced then LOOutcome.noOutputErr
  else LOOutcome.ok

/-- Claim C4 as stated: presence of output is authoritative over the exit
code — the outcome is a success exactly when the expected output exists. -/
def presenceAuthoritative : Prop :=
  ∀ (rc : Int) (out : Bool),
    ((unoconvResult rc out).isSome = true ↔ out = true) ∧
    (libreResult rc false out = LOOutcome.ok ↔ out = true)

/-- C4 counterexample: with exit status 1 and the expected output present,
`docx_to_pdf_unoconv` returns `None` and the LibreOffice branch raises, so a
nonzero exit status with output present is not classified as success. -/
theorem C4_presence_counterexample : ¬ presenceAuthoritative := by
  intro h
  have := (h 1 true).1.mpr rfl
  simp [unoconvResult] at this

/-- C4 amended: an attempt that runs to completion is classified as success
exactly when the exit status is zero **and** the expected output file was
produced; a nonzero exit status is a failure even when the output exists, and
a zero exit status without output is a failure. -/
theorem C4_success_iff_zero_and_output (rc : Int) (sf out : Bool) :
    ((unoconvResult rc out).isSome = true ↔ (rc = 0 ∧ out = true)) ∧
    (libreResult rc sf out = LOOutcome.ok ↔ (rc = 0 ∧ out = true)) := by
  constructor
  · unfold unoconvResult
    split_ifs with h1 h2 <;> simp_all
  · unfold libreResult
    split_ifs with h1 h2 h3 <;> simp_all

/-! ## Dynamic conversion timeout (C6)

`not_pdf_to_images_webp_libreoffice` lines 521-528: files over 5 MB get a
budget of 120 s plus 30 s per MB over 5 MB, capped at 600 s; smaller files
get 120 s.  Python computes `file_size_mb` by exact float division of the
byte size by 1048576 and truncates `int((file_size_mb - 5) * 30)`, which for
the relevant sizes equals the exact floor computed here in `ℕ`. -/

def bytesPerMB : ℕ := 1048576

/-- The timeout budget of one conversion attempt, from the source file's size
in bytes. -/
def conversionTimeout (sizeBytes : ℕ) : ℕ :=
  if 5 * bytesPerMB < sizeBytes then
    min (120 + 30 * (sizeBytes - 5 * bytesPerMB) / bytesPerMB) 600
  else 120

/-- C6: the timeout budget is monotonically non-decreasing in source file
size (base plus per-MB increment above the 5 MB threshold, capped at 600). -/
theorem C6_timeout_monotone (a b : ℕ) (h : a ≤ b) :
    conversionTimeout a ≤ conversionTimeout b := by
  unfold conversionTimeout
  by_cases ha : 5 * bytesPerMB < a
  · have hb : 5 * bytesPerMB < b := lt_of_lt_of_le ha h
    rw [if_pos ha, if_pos hb]
    exact min_le_min
      (Nat.add_le_add_left
        (Nat.div_le_div_right (Nat.mul_le_mul_left 30 (Nat.sub_le_sub_right h _))) 120)
      le_rfl
  · rw [if_neg ha]
    by_cases hb : 5 * bytesPerMB < b
    · rw [if_pos hb]
      exact le_min (Nat.le_add_right 120 _) (by norm_num)
    · rw [if_neg hb]

/-- Witness for `C6_timeout_monotone`: a 3 MB file never gets a larger budget
than an 8 MB file. -/
theorem C6_timeout_monotone_witness :
    3 * bytesPerMB ≤ 8 * bytesPerMB ∧
      conversionTimeout (3 * bytesPerMB) ≤ conversionTimeout (8 * bytesPerMB) :=
  ⟨by norm_num [bytesPerMB], C6_timeout_monotone _ _ (by norm_num [bytesPerMB])⟩

/-! ## Output image quality (C7)

`not_pdf_to_images_webp_libreoffice` line 658 saves page `i` (1-based) at the
requested quality for the first page and quality 5 for every later page.
`pdf_to_images_webp` line 692 saves every page at the same requested quality.
`generate_docs_for_soff` calls both with `quality=60`. -/

/-- Quality of the `i`-th page (1-based) written by the office-document path. -/
def officePageQuality (quality i : ℕ) : ℕ := if i = 1 then quality else 5

/-- Quality of every page written by the PDF-native path
(`img.save(img_path, "WEBP", quality=quality)`, independent of the page). -/
def pdfPageQuality (quality i : ℕ) : ℕ := quality

/-- Claim C7 as stated, for both job kinds at the orchestrator's quality 60:
the first output image is encoded at strictly higher quality than every
subsequent one. -/
def firstPageHigherBoth : Prop :=
  ∀ i, 2 ≤ i →
    officePageQuality 60 1 > officePageQuality 60 i ∧
    pdfPageQuality 60 1 > pdfPageQuality 60 i

/-- C7 counterexample: on the PDF-native path every page, the second
included, is written at the same quality 60 as the first, so the first page
is not at strictly higher quality. -/
theorem C7_quality_counterexample : ¬ firstPageHigherBoth := by
  intro h
  have := (h 2 (by norm_num)).2
  simp [pdfPageQuality] at this

/-- C7 amended: on the office-document path the first page is written at
strictly higher quality (60) than every subsequent page (5), but on the
PDF-native path of `new_docx2pdf.py` all pages are written at the same
quality. -/
theorem C7_quality_split (i j : ℕ) (h : 2 ≤ i) :
    officePageQuality 60 1 > officePageQuality 60 i ∧
    pdfPageQuality 60 i = pdfPageQuality 60 j := by
  constructor
  · unfold officePageQuality
    rw [if_pos rfl, if_neg (by omega)]
    norm_num
  · rfl

/-- Witness for `C7_quality_split` at page 2. -/
theorem C7_quality_split_witness :
    officePageQuality 60 1 > officePageQuality 60 2 ∧
    pdfPageQuality 60 2 = pdfPageQuality 60 3 :=
  C7_quality_split 2 3 (by norm_num)

/-! ## Compression pre-processing (C9)

`compress_pptx_file` and `compress_docx_file` take the environment's
behaviour — whether compression is enabled, whether the file exists and has
the right extension, its size, whether the external tool is found, how the
compression run ends, and whether (and with what size) the compressed file appears —
and return either the compressed-variant path or `None`.  The model returns
the option together with a flag saying whether a compressed file is left on
disk when the function returns. -/

/-- How a `subprocess.run` of the compression tool ends. -/
inductive RunRes
  | finished (rc : Int)
  | timedOut
  | excRaised
deriving DecidableEq

structure CpEnv where
  enabled : Bool
  fileExists : Bool
  goodName : Bool
  origSize : ℕ
  toolFound : Bool
  runRes : RunRes
  producedExists : Bool
  producedSize : ℕ
deriving DecidableEq

/-- Python's `reduction < 3` on exact arithmetic
(`((orig - comp) / orig) * 100 < 3`, with `orig > 0`). -/
def reductionBelow3 (orig comp : ℕ) : Prop :=
  (100 : ℤ) * ((orig : ℤ) - (comp : ℤ)) < 3 * (orig : ℤ)

instance (orig comp : ℕ) : Decidable (reductionBelow3 orig comp) := by
  unfold reductionBelow3; infer_instance

/-- `compress_pptx_file`: first component is the returned value (`some ()`
abstracts the compressed path), second whether a compressed file remains on
disk. -/
def compressPptx (e : CpEnv) : Option Unit × Bool :=
  if !e.enabled then (none, false)
  else if !e.fileExists then (none, false)
  else if !e.goodName then (none, false)
  else if e.origSize < 3 * bytesPerMB then (none, false)
  else if 50 * bytesPerMB < e.origSize then (none, false)
  else if !e.toolFound then (none, false)
  else
    match e.runRes with
    | RunRes.timedOut => (none, false)
    | RunRes.excRaised => (none, false)
    | RunRes.finished rc =>
      if rc ≠ 0 then (none, false)
      else if e.producedExists then
        if reductionBelow3 e.origSize e.producedSize then (none, false)
        else (some (), true)
      else (none, false)

structure CdEnv where
  enabled : Bool
  fileExists : Bool
  goodName : Bool
  origSize : ℕ
  excRaised : Bool
  timedOutMidLoop : Bool
  rebuiltExists : Bool
  rebuiltSize : ℕ
deriving DecidableEq

/-- `compress_docx_file`: the DOCX variant rebuilds the archive itself; a
timeout detected inside the media loop aborts before the compressed file is
created, an exception removes it. -/
def compressDocx (e : CdEnv) : Option Unit × Bool :=
  if !e.enabled then (none, false)
  else if !e.fileExists then (none, false)
  else if !e.goodName then (none, false)
  else if e.origSize < 3 * bytesPerMB then (none, false)
  else if 50 * bytesPerMB < e.origSize then (none, false)
  else if e.excRaised then (none, false)
  else if e.timedOutMidLoop then (none, false)
  else if e.rebuiltExists then
    if reductionBelow3 e.origSize e.rebuiltSize then (none, false)
    else (some (), true)
  else (none, false)

/-! ## Job orchestration (`generate_docs_for_soff`, new_docx2pdf.py 822-1002)

The orchestration is modelled as a function from an environment — the
behaviour of every external step: the metadata fetch, the download, the
compression result, the outcome of each conversion attempt, the repair
result — to the returned boolean, the final file-system state and the trace
of externally visible actions.  The file system is the finite set of
artifact paths the function can create: the downloaded copy
(`temp_copy_{id}{ext}`), the compressed variant, the output image folder,
the repaired variant, the repair engine's extraction directory
(`repair_office_*`), and per-attempt LibreOffice output
(`libreoffice_out_*`) and profile (`libreoffice_profile_*`) directories,
numbered by attempt. -/

inductive FType
  | pptxT
  | pptT
  | docT
  | docxT
  | pdfT
  | otherT
deriving DecidableEq

/-- Outcome of one `not_pdf_to_images_webp_libreoffice` call: a success, a
`subprocess.TimeoutExpired`, a `RuntimeError` whose text carries a crash
marker (`crashed`, produced at line 631 for negative return codes or
segfault output), or any other exception (no output produced, etc.). -/
inductive AOut
  | aSuccess
  | aTimeout
  | aCrashed
  | aNoOutput
deriving DecidableEq

/-- Result of the metadata fetch: a network/parse failure, metadata without
the `file_url` key, a falsy (`null`/empty) `file_url`, or a usable URL. -/
inductive FetchR
  | fetchFail
  | urlMissingKey
  | urlEmptyVal
  | urlOk
deriving DecidableEq

/-- Result of `try_repair_office_file`: input not a zip (no extraction
directory created), repair failed after extraction started, or a repaired
artifact produced. -/
inductive RepairR
  | repNotZip
  | repFailed
  | repOk
deriving DecidableEq

structure GEnv where
  fetch : FetchR
  ftype : FType
  dlOk : Bool
  compressSome : Bool
  out1 : AOut
  out2 : AOut
  out3 : AOut
  repairRes : RepairR
  pdfOk : Bool
deriving DecidableEq

inductive TPath
  | tempP
  | compP
  | outF
  | repairedP
  | repairTmp
  | absOut (k : ℕ)
  | profileP (k : ℕ)
deriving DecidableEq

def insertP (p : TPath) (fs : List TPath) : List TPath :=
  if p ∈ fs then fs else p :: fs

def removeP (p : TPath) (fs : List TPath) : List TPath :=
  fs.filter (fun q => decide (q ≠ p))

/-- Exception kind escaping a conversion attempt. -/
inductive ExcK
  | excTimeout
  | excCrash
  | excOther
deriving DecidableEq

/-- Which artifact an action concerns. -/
inductive Art
  | cArt
  | oArt
  | rArt
  | pdfArt
deriving DecidableEq

/-- Externally visible actions of one job: download, a conversion attempt
against an artifact, a repair invocation, an upload attempt. -/
inductive GEv
  | dlEv
  | attEv (a : Art)
  | repairEv
  | upEv
deriving DecidableEq

/-- One `not_pdf_to_images_webp_libreoffice` call, attempt number `k`: it
creates the output folder, a `libreoffice_out_` directory and (unless a DOCX
alternative converter succeeds, in which case removing the never-created
profile is a no-op) a `libreoffice_profile_` directory; on success both
scratch directories are removed (lines 661-664), on any raised exception
they are left behind (the function has no try/finally). -/
def attemptFx (k : ℕ) (o : AOut) (fs : List TPath) : List TPath × Option ExcK :=
  let fs1 := insertP (TPath.profileP k) (insertP TPath.outF (insertP (TPath.absOut k) fs))
  match o with
  | AOut.aSuccess => (removeP (TPath.profileP k) (removeP (TPath.absOut k) fs1), none)
  | AOut.aTimeout => (fs1, some ExcK.excTimeout)
  | AOut.aCrashed => (fs1, some ExcK.excCrash)
  | AOut.aNoOutput => (fs1, some ExcK.excOther)

/-- The shared tail of every conversion-failure handler in
`generate_docs_for_soff`: call `try_repair_office_file`; if it returns a
path, convert the repaired artifact (attempt 3; an exception there
propagates to the outer handler, which swallows it and the function returns
`True`); if it returns `None`, return `False`.  The repair engine's
extraction directory is never removed. -/
def repairRetry (e : GEnv) (fs : List TPath) (tr : List GEv) :
    Bool × List TPath × List GEv :=
  match e.repairRes with
  | RepairR.repNotZip => (false, fs, tr ++ [GEv.repairEv])
  | RepairR.repFailed => (false, insertP TPath.repairTmp fs, tr ++ [GEv.repairEv])
  | RepairR.repOk =>
    let fs1 := insertP TPath.repairedP (insertP TPath.repairTmp fs)
    let r2 := attemptFx 3 e.out3 fs1
    match r2.2 with
    | none => (true, r2.1, tr ++ [GEv.repairEv, GEv.attEv Art.rArt, GEv.upEv])
    | some _ => (true, r2.1, tr ++ [GEv.repairEv, GEv.attEv Art.rArt])

/-- The fallback of the timeout/crash handlers when the failed attempt ran
against the compressed variant: retry against the original (attempt 2); on
success continue to the upload, on any exception fall back to repair. -/
def retryOriginal (e : GEnv) (fs : List TPath) (tr : List GEv) :
    Bool × List TPath × List GEv :=
  let r2 := attemptFx 2 e.out2 fs
  let tr1 := tr ++ [GEv.attEv Art.oArt]
  match r2.2 with
  | none => (true, r2.1, tr1 ++ [GEv.upEv])
  | some _ => repairRetry e r2.1 tr1

/-- `.pptx`/`.docx` are the compressible types (lines 845-854). -/
def compressible : FType → Bool
  | FType.pptxT | FType.docxT => true
  | _ => false

/-- The office file types (`['.pptx', '.ppt', '.doc', '.docx']`, line 842). -/
def officeType : FType → Bool
  | FType.pptxT | FType.pptT | FType.docT | FType.docxT => true
  | _ => false

/-- The office conversion block (lines 843-954), before its `finally`:
compress (the compressed variant is tried first when produced), attempt 1
against that artifact; on timeout, or on an exception carrying a crash
marker, retry the original if the compressed variant was in use, else go
straight to repair; on any other exception go straight to repair. -/
def officeCore (e : GEnv) (fs0 : List TPath) : Bool × List TPath × List GEv :=
  let hasComp := compressible e.ftype && e.compressSome
  let fs := if hasComp then insertP TPath.compP fs0 else fs0
  let firstArt := if hasComp then Art.cArt else Art.oArt
  let r1 := attemptFx 1 e.out1 fs
  let tr := [GEv.dlEv, GEv.attEv firstArt]
  match r1.2 with
  | none => (true, r1.1, tr ++ [GEv.upEv])
  | some ExcK.excTimeout =>
    if hasComp then retryOriginal e r1.1 tr else repairRetry e r1.1 tr
  | some ExcK.excCrash =>
    if hasComp then retryOriginal e r1.1 tr else repairRetry e r1.1 tr
  | some ExcK.excOther => repairRetry e r1.1 tr

/-- The inner `finally` (lines 955-959): remove the repaired artifact, then
the compressed variant, if they exist. -/
def innerFinallyFx (fs : List TPath) : List TPath :=
  removeP TPath.compP (removeP TPath.repairedP fs)

/-- The office block with its `finally` applied on every exit. -/
def officeRun (e : GEnv) (fs0 : List TPath) : Bool × List TPath × List GEv :=
  let r := officeCore e fs0
  (r.1, innerFinallyFx r.2.1, r.2.2)

/-- The outer `finally` (lines 993-1000): remove the downloaded copy, the
compressed variant and the output image folder, if they exist. -/
def outerFinallyFx (fs : List TPath) : List TPath :=
  removeP TPath.outF (removeP TPath.compP (removeP TPath.tempP fs))

structure GOut where
  ok : Bool
  fs : List TPath
  tr : List GEv
deriving DecidableEq

/-- `generate_docs_for_soff`: every path other than the explicit
`return False` branches inside the office block returns `True` — the outer
`except Exception` swallows download, conversion-of-repaired, PDF and upload
errors, and the function ends with `return True`. -/
def runGen (e : GEnv) : GOut :=
  let core : Bool × List TPath × List GEv :=
    match e.fetch with
    | FetchR.fetchFail => (true, [], [])
    | FetchR.urlMissingKey => (true, [], [])
    | FetchR.urlEmptyVal => (true, [], [])
    | FetchR.urlOk =>
      if e.dlOk then
        let fs0 := [TPath.tempP]
        if officeType e.ftype then officeRun e fs0
        else if e.ftype = FType.pdfT then
          (true, insertP TPath.outF fs0,
            [GEv.dlEv, GEv.attEv Art.pdfArt] ++ (if e.pdfOk then [GEv.upEv] else []))
        else (true, fs0, [GEv.dlEv])
      else (true, [], [GEv.dlEv])
  { ok := core.1, fs := outerFinallyFx core.2.1, tr := core.2.2 }

/-! ## C2: temp-artifact cleanup -/

/-- Claim C2 as stated: on every exit path nothing with the job's temp-path
prefix — including the per-attempt scratch directories — remains on disk. -/
def cleansEverything : Prop := ∀ e : GEnv, (runGen e).fs = []

/-- A job whose single conversion attempt times out and whose repair fails:
the job returns `False` and the attempt's `libreoffice_out_`/
`libreoffice_profile_` directories (and the repair extraction directory)
remain on disk. -/
def envLeak : GEnv where
  fetch := FetchR.urlOk
  ftype := FType.pptxT
  dlOk := true
  compressSome := false
  out1 := AOut.aTimeout
  out2 := AOut.aSuccess
  out3 := AOut.aSuccess
  repairRes := RepairR.repFailed
  pdfOk := true

/-- C2 counterexample: `not_pdf_to_images_webp_libreoffice` removes its
scratch directories only on the success path (lines 661-664 run after the
conversion; there is no `try`/`finally`), so a timed-out attempt leaves
them behind and the job-level `finally` does not touch them. -/
theorem C2_cleanup_counterexample : ¬ cleansEverything := by
  intro h
  have := h envLeak
  exact absurd this (by decide)

theorem tempP_not_mem_outer (fs : List TPath) : TPath.tempP ∉ outerFinallyFx fs := by
  simp [outerFinallyFx, removeP, List.mem_filter]

theorem compP_not_mem_outer (fs : List TPath) : TPath.compP ∉ outerFinallyFx fs := by
  simp [outerFinallyFx, removeP, List.mem_filter]

theorem outF_not_mem_outer (fs : List TPath) : TPath.outF ∉ outerFinallyFx fs := by
  simp [outerFinallyFx, removeP, List.mem_filter]

theorem repairedP_not_mem_outer_inner (fs : List TPath) :
    TPath.repairedP ∉ outerFinallyFx (innerFinallyFx fs) := by
  simp [outerFinallyFx, innerFinallyFx, removeP, List.mem_filter]

/-- C2 amended: the job-level artifacts — downloaded source copy, compressed
variant, repaired variant and output image directory — are removed on every
exit path, and a job whose first conversion attempt succeeds leaves nothing
at all behind; but the per-attempt LibreOffice scratch directories (and the
repair engine's extraction directory) are only removed when the attempt that
created them succeeds, so failing attempts leave them on disk. -/
theorem C2_job_artifacts_removed (e : GEnv) :
    (TPath.tempP ∉ (runGen e).fs ∧ TPath.compP ∉ (runGen e).fs ∧
      TPath.outF ∉ (runGen e).fs ∧ TPath.repairedP ∉ (runGen e).fs) ∧
    (e.out1 = AOut.aSuccess → (runGen e).fs = []) := by
  obtain ⟨f, t, d, c, o1, o2, o3, r, p⟩ := e
  constructor
  · refine ⟨tempP_not_mem_outer _, compP_not_mem_outer _, outF_not_mem_outer _, ?_⟩
    cases f
    case fetchFail => simp [runGen, outerFinallyFx, removeP]
    case urlMissingKey => simp [runGen, outerFinallyFx, removeP]
    case urlEmptyVal => simp [runGen, outerFinallyFx, removeP]
    case urlOk =>
      cases d
      · simp [runGen, outerFinallyFx, removeP]
      · cases t <;>
          first
            | exact repairedP_not_mem_outer_inner _
            | simp [runGen, officeType, outerFinallyFx, insertP, removeP, List.mem_filter]
  · intro h1
    subst h1
    cases f <;> cases d <;> cases t <;> cases c <;> rfl

/-! ## C10: empty or missing `file_url` -/

/-- C10: a job whose fetched metadata has a falsy `file_url` returns `True`
via the early `return True` (line 834-835), and a job whose metadata lacks
the key raises before the download and is swallowed by the outer handler;
either way no download, no conversion attempt and no upload happens and
nothing is left on disk. -/
theorem C10_no_url_trivial_success (e : GEnv)
    (h : e.fetch = FetchR.urlEmptyVal ∨ e.fetch = FetchR.urlMissingKey) :
    (runGen e).ok = true ∧ (runGen e).tr = [] ∧ (runGen e).fs = [] := by
  obtain ⟨f, t, d, c, o1, o2, o3, r, p⟩ := e
  rcases h with h | h <;> subst h <;> exact ⟨rfl, rfl, rfl⟩

/-- A job whose metadata carries an empty `file_url`. -/
def envNoUrl : GEnv where
  fetch := FetchR.urlEmptyVal
  ftype := FType.docxT
  dlOk := true
  compressSome := true
  out1 := AOut.aSuccess
  out2 := AOut.aSuccess
  out3 := AOut.aSuccess
  repairRes := RepairR.repOk
  pdfOk := true

/-- Witness for `C10_no_url_trivial_success` at `envNoUrl`. -/
theorem C10_no_url_trivial_success_witness :
    (runGen envNoUrl).ok = true ∧ (runGen envNoUrl).tr = [] ∧ (runGen envNoUrl).fs = [] :=
  C10_no_url_trivial_success envNoUrl (Or.inl rfl)

/-! ## C3: which jobs are reported as failed -/

/-- Claim C3's second half as stated: a failed download makes the job return
`False`. -/
def downloadFailureReturnsFalse : Prop :=
  ∀ e : GEnv, e.fetch = FetchR.urlOk → e.dlOk = false → (runGen e).ok = false

/-- A job whose download fails. -/
def envDlFail : GEnv where
  fetch := FetchR.urlOk
  ftype := FType.pptxT
  dlOk := false
  compressSome := false
  out1 := AOut.aSuccess
  out2 := AOut.aSuccess
  out3 := AOut.aSuccess
  repairRes := RepairR.repOk
  pdfOk := true

/-- C3 counterexample: `download_file` raising is caught by the outer
`except Exception` (line 990), which only logs; the function then falls
through to its final `return True`, so a failed download is reported as a
successful job. -/
theorem C3_download_failure_counterexample : ¬ downloadFailureReturnsFalse := by
  intro h
  exact absurd (h envDlFail rfl rfl) (by decide)

theorem repairRetry_ok_eq (e : GEnv) (fs : List TPath) (tr : List GEv) :
    (repairRetry e fs tr).1 = decide (e.repairRes = RepairR.repOk) := by
  obtain ⟨f, t, d, c, o1, o2, o3, r, p⟩ := e
  cases r <;> cases o3 <;> rfl

theorem retryOriginal_ok_eq (e : GEnv) (fs : List TPath) (tr : List GEv) :
    (retryOriginal e fs tr).1 =
      (decide (e.out2 = AOut.aSuccess) || decide (e.repairRes = RepairR.repOk)) := by
  obtain ⟨f, t, d, c, o1, o2, o3, r, p⟩ := e
  cases o2 <;> cases r <;> cases o3 <;> rfl

/-- Closed form of the boolean the office block returns; proved equal to
`officeCore` in `officeCore_ok_eq`. -/
def officeOkB (e : GEnv) : Bool :=
  decide (e.out1 = AOut.aSuccess) ||
    (if (compressible e.ftype && e.compressSome) &&
        (decide (e.out1 = AOut.aTimeout) || decide (e.out1 = AOut.aCrashed)) then
      decide (e.out2 = AOut.aSuccess) || decide (e.repairRes = RepairR.repOk)
    else decide (e.repairRes = RepairR.repOk))

theorem officeCore_ok_eq (e : GEnv) (fs : List TPath) :
    (officeCore e fs).1 = officeOkB e := by
  obtain ⟨f, t, d, c, o1, o2, o3, r, p⟩ := e
  cases o1 <;>
    cases hc : (compressible t && c) <;>
      simp [officeCore, officeOkB, attemptFx, hc, retryOriginal_ok_eq, repairRetry_ok_eq]

/-- C3 amended: `generate_docs_for_soff` returns `False` exactly when an
office-format conversion fails and `try_repair_office_file` returns `None`
(with the original also having failed when the failed first attempt ran
against the compressed variant after a timeout or crash).  Download and
upload failures — and a failing conversion of a successfully repaired
artifact — are swallowed by the outer exception handler and reported as
`True`. -/
theorem C3_false_iff_repair_unavailable (e : GEnv) :
    (runGen e).ok = false ↔
      (e.fetch = FetchR.urlOk ∧ e.dlOk = true ∧ officeType e.ftype = true ∧
        e.out1 ≠ AOut.aSuccess ∧ e.repairRes ≠ RepairR.repOk ∧
        ((compressible e.ftype && e.compressSome) = true ∧
            (e.out1 = AOut.aTimeout ∨ e.out1 = AOut.aCrashed) →
          e.out2 ≠ AOut.aSuccess)) := by
  obtain ⟨f, t, d, c, o1, o2, o3, r, p⟩ := e
  cases f
  case fetchFail => simp [runGen]
  case urlMissingKey => simp [runGen]
  case urlEmptyVal => simp [runGen]
  case urlOk =>
    cases d
    · simp [runGen]
    · cases t
      case pdfT => simp [runGen, officeType]
      case otherT => simp [runGen, officeType]
      all_goals
        simp [runGen, officeType]
        rw [show ∀ (e : GEnv) (fs : List TPath), (officeRun e fs).1 = (officeCore e fs).1
            from fun _ _ => rfl,
          officeCore_ok_eq]
        cases c <;> cases o1 <;> cases o2 <;> cases r <;>
          simp [officeOkB, compressible]

/-! ## C5: retry against the original before repair -/

/-- C5: when the first conversion attempt ran against the compressed variant
and ended in a timeout or a crash, the orchestrator immediately retries
against the original artifact — the third traced action, before any repair —
and the repair engine is invoked only if that retry against the original
also failed. -/
theorem C5_original_retried_before_repair (e : GEnv)
    (hf : e.fetch = FetchR.urlOk) (hd : e.dlOk = true)
    (hc : (compressible e.ftype && e.compressSome) = true)
    (h1 : e.out1 = AOut.aTimeout ∨ e.out1 = AOut.aCrashed) :
    (runGen e).tr.take 3 = [GEv.dlEv, GEv.attEv Art.cArt, GEv.attEv Art.oArt] ∧
    (GEv.repairEv ∈ (runGen e).tr → e.out2 ≠ AOut.aSuccess) := by
  obtain ⟨f, t, d, c, o1, o2, o3, r, p⟩ := e
  subst hf
  subst hd
  rcases h1 with h1 | h1 <;> subst h1 <;>
    cases t <;> cases c <;> cases o2 <;> cases o3 <;> cases r <;> cases p <;>
      first
        | exact absurd hc (by decide)
        | exact ⟨rfl, by decide⟩

/-- A job whose compressed-variant attempt times out and whose original
attempt succeeds. -/
def envCompTimeout : GEnv where
  fetch := FetchR.urlOk
  ftype := FType.pptxT
  dlOk := true
  compressSome := true
  out1 := AOut.aTimeout
  out2 := AOut.aSuccess
  out3 := AOut.aSuccess
  repairRes := RepairR.repOk
  pdfOk := true

/-- Witness for `C5_original_retried_before_repair` at `envCompTimeout`. -/
theorem C5_original_retried_before_repair_witness :
    (runGen envCompTimeout).tr.take 3 =
      [GEv.dlEv, GEv.attEv Art.cArt, GEv.attEv Art.oArt] ∧
    (GEv.repairEv ∈ (runGen envCompTimeout).tr → envCompTimeout.out2 ≠ AOut.aSuccess) :=
  C5_original_retried_before_repair envCompTimeout rfl rfl (by decide) (Or.inl rfl)

/-! ## Producer / worker queue protocol (C8)

`producer` (new_optimized.py 308-331) enumerates job identifiers one paced
request at a time — a 200 response with a truthy `id` is enqueued and
advances the cursor, a missing/falsy `id` ends enumeration, any other
response or exception just retries — and, once the loop is exhausted,
enqueues exactly one `None` sentinel per worker.  `worker` (both files)
blocking-dequeues until it sees `None`, processing each dequeued identifier
in order. -/

/-- One paced request of the producer: a 200 response carrying `id`, a
response without a usable `id` (ends enumeration), or a non-200/raised
request (skipped). -/
inductive FetchId
  | gotId (id : ℕ)
  | noId
  | httpFail
deriving DecidableEq

/-- The producer's enumeration loop: at most `limit` requests, cursor
`start`; a truthy id is collected and advances the cursor (`start = doc_id +
1`), a falsy (`0`/missing) id breaks, a failed request leaves the cursor. -/
def producerEnum (fetch : ℕ → FetchId) : ℕ → ℕ → List ℕ
  | 0, _ => []
  | Nat.succ k, start =>
    match fetch start with
    | FetchId.gotId id => if id = 0 then [] else id :: producerEnum fetch k (id + 1)
    | FetchId.noId => []
    | FetchId.httpFail => producerEnum fetch k start

/-- Everything the producer enqueues, in order: the enumerated identifiers,
then one `None` sentinel per worker (`for _ in range(workers): queue.put(None)`). -/
def producerRun (fetch : ℕ → FetchId) (limit start workers : ℕ) : List (Option ℕ) :=
  (producerEnum fetch limit start).map some ++ List.replicate workers none

/-- `worker`: dequeue, stop on the sentinel, otherwise process and loop.
The argument is the sequence of values this worker's `queue.get()` returns;
the result is the list of job identifiers it processes. -/
def workerRun : List (Option ℕ) → List ℕ
  | [] => []
  | none :: _ => []
  | some id :: rest => id :: workerRun rest

theorem count_none_map_some (l : List ℕ) :
    (l.map some).count (none : Option ℕ) = 0 := by
  rw [List.count_eq_zero]
  simp

theorem workerRun_until_sentinel (xs ys : List (Option ℕ)) (h : none ∉ xs) :
    workerRun (xs ++ none :: ys) = xs.filterMap id := by
  induction xs with
  | nil => rfl
  | cons a rest ih =>
    match a with
    | none => exact absurd (List.mem_cons_self _ _) h
    | some v =>
      have h' : none ∉ rest := fun hm => h (List.mem_cons_of_mem _ hm)
      simp [workerRun, ih h', List.filterMap_cons]

/-- C8: (i) the producer enqueues exactly `workers` sentinels; (ii) a
sentinel sits at exactly the positions after every enumerated job identifier
— each sentinel is enqueued only once the producer has finished enumerating;
(iii) a worker that dequeues the values `xs ++ none :: ys` with no sentinel
in `xs` terminates at that first sentinel having processed exactly the job
identifiers dequeued before it. -/
theorem C8_sentinel_protocol :
    (∀ (fetch : ℕ → FetchId) (limit start workers : ℕ),
      (producerRun fetch limit start workers).count none = workers) ∧
    (∀ (fetch : ℕ → FetchId) (limit start workers i : ℕ),
      (producerRun fetch limit start workers)[i]? = some none ↔
        ((producerEnum fetch limit start).length ≤ i ∧
          i < (producerEnum fetch limit start).length + workers)) ∧
    (∀ (xs ys : List (Option ℕ)), none ∉ xs →
      workerRun (xs ++ none :: ys) = xs.filterMap id) := by
  refine ⟨?_, ?_, workerRun_until_sentinel⟩
  · intro fetch limit start workers
    rw [producerRun, List.count_append, count_none_map_some,
      List.count_replicate_self]
    exact Nat.zero_add workers
  · intro fetch limit start workers i
    rw [producerRun, List.getElem?_append]
    rcases lt_or_ge i (producerEnum fetch limit start).length with hi | hi
    · rw [if_pos (by simpa using hi)]
      have hni : ¬ (producerEnum fetch limit start).length ≤ i := by omega
      simp [List.getElem?_map, List.getElem?_eq_getElem hi, hni]
    · rw [if_neg (by simpa using not_lt.mpr hi)]
      simp only [List.length_map]
      rw [List.getElem?_replicate]
      split_ifs with hw
      · simp only [true_iff]
        omega
      · constructor
        · intro h
          exact absurd h (by simp)
        · intro h
          omega

/-! ## C9: compression is guarded and self-cleaning -/

theorem compressPptx_some_shape (e : CpEnv)
    (h : (compressPptx e).1.isSome = true) :
    e.producedExists = true ∧ ¬ reductionBelow3 e.origSize e.producedSize := by
  rcases hrr : e.runRes with rc | _ | _ <;>
    simp only [compressPptx, hrr] at h <;> split_ifs at h <;> simp_all

theorem compressPptx_cases (e : CpEnv) :
    compressPptx e = (none, false) ∨ compressPptx e = (some (), true) := by
  rcases hrr : e.runRes with rc | _ | _ <;>
    simp only [compressPptx, hrr] <;> split_ifs <;> simp

theorem compressPptx_none_clean (e : CpEnv)
    (h : (compressPptx e).1 = none) : (compressPptx e).2 = false := by
  rcases compressPptx_cases e with hc | hc
  · rw [hc]
  · rw [hc] at h
    simp at h

theorem compressDocx_some_shape (e : CdEnv)
    (h : (compressDocx e).1.isSome = true) :
    e.rebuiltExists = true ∧ ¬ reductionBelow3 e.origSize e.rebuiltSize := by
  simp only [compressDocx] at h
  split_ifs at h <;> simp_all

theorem compressDocx_cases (e : CdEnv) :
    compressDocx e = (none, false) ∨ compressDocx e = (some (), true) := by
  simp only [compressDocx]
  split_ifs <;> simp

theorem compressDocx_none_clean (e : CdEnv)
    (h : (compressDocx e).1 = none) : (compressDocx e).2 = false := by
  rcases compressDocx_cases e with hc | hc
  · rw [hc]
  · rw [hc] at h
    simp at h

theorem repairRetry_tr_append (e : GEnv) (fs : List TPath) (tr : List GEv) :
    ∃ s, (repairRetry e fs tr).2.2 = tr ++ s := by
  rcases hr : e.repairRes <;> rcases h3 : e.out3 <;>
    simp only [repairRetry, attemptFx, hr, h3] <;> exact ⟨_, rfl⟩

theorem retryOriginal_tr_append (e : GEnv) (fs : List TPath) (tr : List GEv) :
    ∃ s, (retryOriginal e fs tr).2.2 = tr ++ s := by
  rcases h2 : e.out2 <;> simp only [retryOriginal, attemptFx, h2]
  case aSuccess => exact ⟨_, List.append_assoc _ _ _⟩
  all_goals
    obtain ⟨s, hs⟩ := repairRetry_tr_append e _ (tr ++ [GEv.attEv Art.oArt])
    exact ⟨[GEv.attEv Art.oArt] ++ s, by rw [hs, List.append_assoc]⟩

/-- The office block's trace always starts with the download and an attempt
against the compressed variant when one is in use, the original otherwise. -/
theorem officeCore_tr_prefix (e : GEnv) (fs : List TPath) :
    ∃ rest, (officeCore e fs).2.2 =
      [GEv.dlEv, GEv.attEv
        (if (compressible e.ftype && e.compressSome) = true then Art.cArt
         else Art.oArt)] ++ rest := by
  rcases h1 : e.out1 <;> rcases hcv : (compressible e.ftype && e.compressSome) <;>
    simp only [officeCore, attemptFx, h1, hcv, if_true, if_false] <;>
    first
      | exact ⟨_, rfl⟩
      | exact retryOriginal_tr_append _ _ _
      | exact repairRetry_tr_append _ _ _

/-- C9: (i)/(iii) a compressed-variant path is returned only when the
compressed file exists and is at least 3% smaller than the original;
(ii)/(iv) whenever `None` is returned no compressed file is left on disk;
(v) when no compressed variant is in use the orchestrator's first conversion
attempt runs against the unmodified original artifact. -/
theorem C9_compression_effective_or_absent (ep : CpEnv) (ed : CdEnv) (ge : GEnv) :
    ((compressPptx ep).1.isSome = true →
      ep.producedExists = true ∧ ¬ reductionBelow3 ep.origSize ep.producedSize) ∧
    ((compressPptx ep).1 = none → (compressPptx ep).2 = false) ∧
    ((compressDocx ed).1.isSome = true →
      ed.rebuiltExists = true ∧ ¬ reductionBelow3 ed.origSize ed.rebuiltSize) ∧
    ((compressDocx ed).1 = none → (compressDocx ed).2 = false) ∧
    (ge.fetch = FetchR.urlOk → ge.dlOk = true → officeType ge.ftype = true →
      (compressible ge.ftype && ge.compressSome) = false →
      (runGen ge).tr.take 2 = [GEv.dlEv, GEv.attEv Art.oArt]) := by
  refine ⟨compressPptx_some_shape ep, compressPptx_none_clean ep,
    compressDocx_some_shape ed, compressDocx_none_clean ed, ?_⟩
  intro hf hd ho hc
  have hpre := officeCore_tr_prefix ge [TPath.tempP]
  rw [hc] at hpre
  obtain ⟨rest, hrest⟩ := hpre
  have htr : (runGen ge).tr = (officeCore ge [TPath.tempP]).2.2 := by
    obtain ⟨f, t, d, c, o1, o2, o3, r, p⟩ := ge
    subst hf
    subst hd
    cases t <;> first
      | rfl
      | simp [officeType] at ho
  rw [htr, hrest]
  rfl
